import Mathlib

/-!
Shallow embedding of the ld-news aggregation pipeline: keyword filtering and
article validation (src/src/data_processing/content_processor.py), social-media
URL and date normalization (src/src/data_collection/phantombuster_client.py),
digest formatting (src/src/output_formatting/digest_formatter.py) and delivery
(src/main.py, src/src/delivery/slack_sender.py, src/src/delivery/gmail_sender.py).
Pure string processing is translated directly; calls into the network, the
OpenAI client, BeautifulSoup and the datetime/strptime library are modelled as
explicit oracle parameters. Strings are treated at the ASCII level (Python
lower/strip/regex classes are modelled on their ASCII behaviour).
-/

set_option maxRecDepth 16384
set_option maxHeartbeats 1600000

namespace LDNews

/-- Whitespace class used by Python str.strip and str.split (ASCII range). -/
def pySpace (c : Char) : Bool :=
  c == ' ' || c == '\t' || c == '\n' || c == '\r' || c == '\x0b' || c == '\x0c'

/-- Lowercase one character, as Python str.lower acts on ASCII input. -/
def lowC (c : Char) : Char := c.toLower

/-- Lowercase a character list. -/
def lowL (l : List Char) : List Char := l.map lowC

/-- Lowercase a string (models Python str.lower on ASCII text). -/
def lowS (s : String) : String := ⟨lowL s.data⟩

/-- Test that the first list is an initial segment of the second. -/
def isPre : List Char → List Char → Bool
  | [], _ => true
  | _ :: _, [] => false
  | a :: as, b :: bs => a == b && isPre as bs

/-- Substring test on character lists (Python operator in for strings). -/
def isSub (pat : List Char) : List Char → Bool
  | [] => isPre pat []
  | c :: t => isPre pat (c :: t) || isSub pat t

/-- Python pat in s on strings. -/
def strHas (s pat : String) : Bool := isSub pat.data s.data

/-- Test that the first list is a final segment of the second. -/
def isSuf (pat s : List Char) : Bool := isPre pat.reverse s.reverse

/-- Drop matching characters from the end of a list. -/
def dropEnd (p : Char → Bool) (l : List Char) : List Char :=
  (l.reverse.dropWhile p).reverse

/-- Strip matching characters from both ends of a list. -/
def stripL (p : Char → Bool) (l : List Char) : List Char :=
  dropEnd p (l.dropWhile p)

/-- Python str.strip with no argument (whitespace on both ends). -/
def pyStrip (s : String) : String := ⟨stripL pySpace s.data⟩

/-- Python u.lstrip with the slash character. -/
def lstripSlash (s : String) : String := ⟨s.data.dropWhile (fun c => c == '/')⟩

/-- Split a list at the first occurrence of a character; none when absent. -/
def splitFirst (c : Char) : List Char → Option (List Char × List Char)
  | [] => none
  | a :: t =>
    if a == c then some ([], t)
    else (splitFirst c t).map (fun p => (a :: p.1, p.2))

/-- Fuelled worker for splitEvery; every recursive call strictly shortens the
list, so fuel one more than the length is always enough. -/
def splitEveryFuel (c : Char) : ℕ → List Char → List (List Char)
  | 0, l => [l]
  | n + 1, l =>
    match splitFirst c l with
    | none => [l]
    | some (a, b) => a :: splitEveryFuel c n b

/-- Split a list at every occurrence of a character (Python str.split(sep)). -/
def splitEvery (c : Char) (l : List Char) : List (List Char) :=
  splitEveryFuel c (l.length + 1) l

/-- Value of a hexadecimal digit character. -/
def hexVal (c : Char) : Option Nat :=
  if '0' ≤ c ∧ c ≤ '9' then some (c.toNat - 48)
  else if 'a' ≤ c ∧ c ≤ 'f' then some (c.toNat - 87)
  else if 'A' ≤ c ∧ c ≤ 'F' then some (c.toNat - 55)
  else none

/-- Percent-decoding of a character list: each valid %XX pair becomes the
character with that byte value, malformed escapes are kept verbatim.
This models urllib.parse.unquote at the ASCII/byte level (the UTF-8 decoding
of multi-byte sequences is not refined further). -/
def unquoteL : List Char → List Char
  | [] => []
  | '%' :: a :: b :: t =>
    match hexVal a, hexVal b with
    | some x, some y => Char.ofNat (16 * x + y) :: unquoteL t
    | _, _ => '%' :: unquoteL (a :: b :: t)
  | c :: t => c :: unquoteL t

/-- urllib.parse.unquote on strings. -/
def unquoteS (s : String) : String := ⟨unquoteL s.data⟩

/-- urllib.parse.unquote_plus: plus signs become spaces, then percent-decode. -/
def unquotePlus (s : String) : String :=
  unquoteS ⟨s.data.map (fun c => if c == '+' then ' ' else c)⟩

/-- urllib.parse.parse_qsl with keep_blank_values=False: split the query on
ampersands, skip empty chunks, skip chunks without an equals sign or with an
empty value, and percent-plus-decode names and values. -/
def parseQsl (q : String) : List (String × String) :=
  (splitEvery '&' q.data).filterMap fun nv =>
    if nv.isEmpty then none
    else
      match splitFirst '=' nv with
      | none => none
      | some (n, v) =>
        if v.isEmpty then none else some (unquotePlus ⟨n⟩, unquotePlus ⟨v⟩)

/-- First value of a query parameter, as parse_qs(q).get(key) followed by
taking element zero of the value list. -/
def qsFirst (q : String) (key : String) : Option String :=
  ((parseQsl q).find? (fun kv => kv.1 == key)).map (fun kv => kv.2)

/-- Components produced by urllib.parse.urlparse (params splitting unused). -/
structure UrlParts where
  scheme : String := ""
  netloc : String := ""
  path : String := ""
  query : String := ""
  fragment : String := ""
deriving DecidableEq

/-- Characters allowed in a URL scheme. -/
def isSchemeChar (c : Char) : Bool :=
  c.isAlpha || c.isDigit || c == '+' || c == '-' || c == '.'

/-- Control characters and space stripped by urlsplit (WHATWG rule). -/
def wsC0 (c : Char) : Bool := c.toNat ≤ 32

/-- Characters that end the network-location component. -/
def netlocEnd (c : Char) : Bool := c == '/' || c == '?' || c == '#'

/-- urllib.parse.urlsplit: strip C0 controls and spaces, drop tab and newline
characters, extract the scheme (a leading alphabetic run of scheme characters
before a colon), the network location after a double slash (raising ValueError,
here an error value, on an unmatched square bracket), then the fragment and
query. The bracketed-host validation added in very recent Python versions is
not modelled. -/
def pyUrlsplit (s : String) : Except Unit UrlParts :=
  let u1 := (stripL wsC0 s.data).filter (fun c => !(c == '\t' || c == '\r' || c == '\n'))
  let sc :=
    match splitFirst ':' u1 with
    | some (pre, rest) =>
      match pre with
      | [] => (([] : List Char), u1)
      | p0 :: _ => if p0.isAlpha && pre.all isSchemeChar then (lowL pre, rest) else ([], u1)
    | none => ([], u1)
  let nl :=
    if isPre ['/', '/'] sc.2 then
      ((sc.2.drop 2).takeWhile (fun c => !netlocEnd c),
       (sc.2.drop 2).dropWhile (fun c => !netlocEnd c))
    else ([], sc.2)
  if (nl.1.contains '[' && !nl.1.contains ']') || (nl.1.contains ']' && !nl.1.contains '[') then
    .error ()
  else
    let fr :=
      match splitFirst '#' nl.2 with
      | some (a, b) => (a, b)
      | none => (nl.2, ([] : List Char))
    let qu :=
      match splitFirst '?' fr.1 with
      | some (a, b) => (a, b)
      | none => (fr.1, ([] : List Char))
    .ok { scheme := ⟨sc.1⟩, netloc := ⟨nl.1⟩, path := ⟨qu.1⟩, query := ⟨qu.2⟩, fragment := ⟨fr.2⟩ }

/-- Condition under which a parsed URL is a Google redirect wrapper. -/
def isGoogleRedirect (p : UrlParts) : Bool :=
  isSuf "google.com".data p.netloc.data && isPre "/url".data p.path.data

/-- The redirect target parameter: q first, then url (qs.get of the code). -/
def googleTarget (p : UrlParts) : Option String :=
  match qsFirst p.query "q" with
  | some t => some t
  | none => qsFirst p.query "url"

/-- Add an https prefix when the parsed URL has no scheme. -/
def addHttpsIfNoScheme (p : UrlParts) (u : String) : String :=
  if p.scheme = "" then "https://" ++ lstripSlash u else u

/-- The redirect target actually used: the URL must look like a Google
redirect and carry a non-empty q or url parameter (the target and target[0]
truthiness checks of the source). -/
def googleUnwrapTarget (p : UrlParts) : Option String :=
  match (if isGoogleRedirect p then googleTarget p else none) with
  | some t => if t ≠ "" then some t else none
  | none => none

/-- ContentProcessor._normalize_generic_url: unwrap Google redirect links and
ensure an http or https scheme; any parse error returns the input unchanged. -/
def normalizeGenericUrl (url : String) : String :=
  if url = "" then url
  else
    let u := pyStrip url
    match pyUrlsplit u with
    | .error _ => url
    | .ok p =>
      match googleUnwrapTarget p with
      | some t =>
        match pyUrlsplit (unquoteS t) with
        | .error _ => url
        | .ok p2 => addHttpsIfNoScheme p2 (unquoteS t)
      | none => addHttpsIfNoScheme p u

/-- A PhantomBuster result row: a string-keyed, string-valued mapping in
insertion order (one CSV record or one flat JSON object). -/
def Row : Type := List (String × String)

/-- Python row.get(k): value of the first matching key, none when absent. -/
def rowGet (row : Row) (k : String) : Option String :=
  ((row : List (String × String)).find? (fun kv => kv.1 == k)).map (fun kv => kv.2)

/-- Python row.get(a) or row.get(b) or ... or the empty string: the first
key whose value is present and non-empty. -/
def firstTruthy (row : Row) : List String → String
  | [] => ""
  | k :: ks =>
    match rowGet row k with
    | some v => if v ≠ "" then v else firstTruthy row ks
    | none => firstTruthy row ks

/-- Case-insensitive prefix test for http:// or https://, modelling
re.match with pattern caret h t t p s? colon slash slash and IGNORECASE. -/
def startsWithHttpCI (s : String) : Bool :=
  isPre "http://".data (lowL s.data) || isPre "https://".data (lowL s.data)

/-- The local _ensure_scheme helper of _normalize_twitter_url. -/
def ensureScheme (u : String) : String :=
  if u = "" then u
  else if isPre "//".data u.data then "https:" ++ u
  else if startsWithHttpCI u = false then "https://" ++ lstripSlash u
  else u

/-- The local _unwrap_google_redirect helper of _normalize_twitter_url:
identical to the unwrap step of _normalize_generic_url, returning the input
on a parse error. -/
def twUnwrapGoogle (u : String) : String :=
  match pyUrlsplit u with
  | .error _ => u
  | .ok p =>
    if isGoogleRedirect p then
      match googleTarget p with
      | some t => if t ≠ "" then unquoteS t else u
      | none => u
    else u

/-- Fuelled worker for replaceL; every step consumes at least one character,
so fuel equal to the length is always enough. -/
def replaceFuel (pat rep : List Char) : ℕ → List Char → List Char
  | 0, l => l
  | _ + 1, [] => []
  | n + 1, c :: t =>
    if isPre pat (c :: t) then rep ++ replaceFuel pat rep n (t.drop (pat.length - 1))
    else c :: replaceFuel pat rep n t

/-- Python str.replace: replace all non-overlapping occurrences of a
non-empty pattern, scanning left to right. -/
def replaceL (pat rep : List Char) (l : List Char) : List Char :=
  replaceFuel pat rep l.length l

/-- Python str.replace on strings. -/
def replaceS (s pat rep : String) : String := ⟨replaceL pat.data rep.data s.data⟩

/-- The two domain rewrites applied by the Twitter URL normalizer. -/
def xcomRewrite (u : String) : String :=
  replaceS (replaceS u "mobile.twitter.com" "twitter.com") "twitter.com" "x.com"

/-- Regex match attempt at one position for slash status (optionally
statuses) slash digits; the captured group is the maximal digit run. -/
def matchStatusAt (l : List Char) : Option (List Char) :=
  if isPre "/statuses/".data l then
    let d := (l.drop 10).takeWhile Char.isDigit
    if d ≠ [] then some d else none
  else if isPre "/status/".data l then
    let d := (l.drop 8).takeWhile Char.isDigit
    if d ≠ [] then some d else none
  else none

/-- Leftmost match of a positional matcher (re.search scanning). -/
def searchTok (m : List Char → Option (List Char)) : List Char → Option (List Char)
  | [] => none
  | c :: t =>
    match m (c :: t) with
    | some r => some r
    | none => searchTok m t

/-- Match attempt at one position for slash i slash web slash status slash
digits. -/
def matchIWebAt (l : List Char) : Option (List Char) :=
  if isPre "/i/web/status/".data l then
    let d := (l.drop 14).takeWhile Char.isDigit
    if d ≠ [] then some d else none
  else none

/-- Tweet id extracted from a URL by the two regex searches of the source. -/
def tweetIdOf (u : String) : Option String :=
  match searchTok matchStatusAt u.data with
  | some d => some ⟨d⟩
  | none => (searchTok matchIWebAt u.data).map (fun d => (⟨d⟩ : String))

/-- Username candidates gathered by _normalize_twitter_url. -/
def rawUsername (row : Row) : String :=
  firstTruthy row
    ["handle", "username", "userScreenName", "screen_name", "screenName",
     "author", "poster", "name"]

/-- Username with at signs removed and whitespace stripped. -/
def cleanUsername (row : Row) : String :=
  pyStrip ⟨(rawUsername row).data.filter (fun c => !(c == '@'))⟩

/-- The stripped fallback id from tweetId, id or status_id fields. -/
def rowIdStr (row : Row) : String :=
  pyStrip (firstTruthy row ["tweetId", "id", "status_id"])

/-- Python str.isdigit on ASCII text: non-empty and all digits. -/
def allDigits (s : String) : Bool := !s.data.isEmpty && s.data.all Char.isDigit

/-- The URL after picking the first candidate field, stripping, unwrapping a
Google redirect and ensuring a scheme (the value the source holds in url
just before the early-return on emptiness). -/
def twBaseUrl (row : Row) : String :=
  ensureScheme (twUnwrapGoogle (pyStrip (firstTruthy row ["tweetUrl", "postUrl", "url", "link"])))

/-- The id-and-username resolution of _normalize_twitter_url, applied to the
rewritten URL: canonical forms when a tweet id is found in the URL or a
numeric id field exists, the rewritten URL otherwise. -/
def normalizeTwitterCore (row : Row) (u : String) : String :=
  match tweetIdOf u with
  | some tid =>
    if cleanUsername row ≠ "" then "https://x.com/" ++ cleanUsername row ++ "/status/" ++ tid
    else "https://x.com/i/status/" ++ tid
  | none =>
    if allDigits (rowIdStr row) then
      if cleanUsername row ≠ "" then
        "https://x.com/" ++ cleanUsername row ++ "/status/" ++ rowIdStr row
      else "https://x.com/i/status/" ++ rowIdStr row
    else u

/-- PhantomBusterClient._normalize_twitter_url. -/
def normalizeTwitterUrl (row : Row) : String :=
  let url := twBaseUrl row
  if url = "" then url
  else normalizeTwitterCore row (xcomRewrite url)

/-- Key normalization of _get_caseinsensitive_field: lowercase and keep only
ASCII letters and digits. -/
def normKeyS (k : String) : String :=
  ⟨(lowL k.data).filter (fun c => c.isLower || c.isDigit)⟩

/-- Lookup in the normalized-key map: dict insertion makes the last raw key
with a given normalized form win. -/
def ciLookup (row : Row) (name : String) : Option String :=
  (((row : List (String × String)).reverse.find? (fun kv => normKeyS kv.1 == normKeyS name)).map
    (fun kv => kv.2))

/-- PhantomBusterClient._get_caseinsensitive_field over candidate names. -/
def ciField (row : Row) : List String → String
  | [] => ""
  | n :: ns =>
    match ciLookup row n with
    | some v => if v ≠ "" then v else ciField row ns
    | none => ciField row ns

/-- PhantomBusterClient._extract_tweet_link: match common header variants,
ensure a scheme and rewrite Twitter domains to x.com. -/
def extractTweetLink (row : Row) : String :=
  let link := ciField row
    ["tweet link", "tweet url", "tweet_url", "tweetlink", "tweetURL",
     "status url", "status link", "permalink", "permalink url",
     "tweet permalink", "tweet_perma_link", "tweetpermalink"]
  if link = "" then ""
  else
    let l := pyStrip link
    let l2 :=
      if isPre "//".data l.data then "https:" ++ l
      else if startsWithHttpCI l = false then "https://" ++ lstripSlash l
      else l
    xcomRewrite l2

/-- Oracle bundle for the PhantomBuster client: datetime.strptime (per format
string), date and datetime isoformat rendering, the current time and the
PHANTOM_WINDOW_DAYS setting. Datetimes are modelled as rational epoch
seconds. -/
structure PBContext where
  strp : String → String → Option ℚ
  isoDate : ℚ → String
  isoDateTime : ℚ → String
  now : ℚ
  windowDays : ℤ

/-- Models datetime.fromtimestamp: defined up to the end of year 9999,
raising (none) beyond it; the inputs reaching it here are always positive. -/
def pyFromtimestamp (t : ℚ) : Option ℚ :=
  if t < 253402300800 then some t else none

/-- Numeric value of a digit list. -/
def natOfDigits (l : List Char) : ℕ :=
  l.foldl (fun acc c => 10 * acc + (c.toNat - 48)) 0

/-- Regex sub removing the colon of a trailing timezone offset such as
+05:30, turning it into +0530. -/
def tzFix (s : String) : String :=
  let l := s.data
  let n := l.length
  if 6 ≤ n then
    match l.drop (n - 6) with
    | [sg, d1, d2, co, d3, d4] =>
      if (sg == '+' || sg == '-') && d1.isDigit && d2.isDigit && co == ':' &&
          d3.isDigit && d4.isDigit then
        ⟨l.take (n - 6) ++ [sg, d1, d2, d3, d4]⟩
      else s
    | _ => s
  else s

/-- The datetime format strings tried by _parse_date, in order. -/
def dateFormats : List String :=
  ["%Y-%m-%d %H:%M:%S", "%Y-%m-%dT%H:%M:%S", "%Y-%m-%dT%H:%M:%S.%f",
   "%Y-%m-%dT%H:%M:%SZ", "%Y-%m-%dT%H:%M:%S.%fZ", "%Y-%m-%dT%H:%M:%S%z",
   "%a, %d %b %Y %H:%M:%S %z", "%m/%d/%Y", "%d/%m/%Y", "%Y-%m-%d"]

/-- The strptime fallback loop of _parse_date: first format that parses. -/
def parseDateFormats (lib : PBContext) (s : String) : Option ℚ :=
  ((dateFormats.filterMap (fun f => lib.strp (tzFix s) f))).head?

/-- The body of _parse_date on the stripped string: a 10-to-13-digit run is
an epoch value, milliseconds when at least ten to the twelfth and seconds
otherwise (an out-of-range value raises inside the try and falls through to
the format loop); otherwise the listed formats are tried in order. -/
def parseDateCore (lib : PBContext) (s : String) : Option ℚ :=
  if s.data.all Char.isDigit = true ∧ 10 ≤ s.data.length ∧ s.data.length ≤ 13 then
    match pyFromtimestamp
        (if 1000000000000 ≤ (natOfDigits s.data : ℚ) then (natOfDigits s.data : ℚ) / 1000
         else (natOfDigits s.data : ℚ)) with
    | some d => some d
    | none => parseDateFormats lib s
  else parseDateFormats lib s

/-- PhantomBusterClient._parse_date: falsy input gives none, everything else
is stripped and parsed. -/
def parseDate (lib : PBContext) (dateStr : String) : Option ℚ :=
  if dateStr = "" then none
  else parseDateCore lib (pyStrip dateStr)

/-- Field names tried by _extract_date, in order. -/
def extractKeys : List String :=
  ["timestamp", "date", "publishedAt", "publicationDate", "time",
   "created_at", "post_date", "timestampMs", "epoch"]

/-- PhantomBusterClient._extract_date: the first key whose present, non-empty
value parses to a datetime. -/
def extractDate (lib : PBContext) (row : Row) : Option ℚ :=
  (extractKeys.filterMap (fun k =>
    match rowGet row k with
    | some v => if v ≠ "" then parseDate lib v else none
    | none => none)).head?

/-- PhantomBusterClient._is_recent: false for a missing date, otherwise the
date must be no older than window_days days before now. -/
def isRecent (lib : PBContext) : Option ℚ → Bool
  | none => false
  | some dt => decide (lib.now - (lib.windowDays : ℚ) * 86400 ≤ dt)

/-- Match attempt at one position for the ISO date token regex: four digits,
hyphen, two digits, hyphen, two digits. -/
def isoTokenAt (l : List Char) : Option (List Char) :=
  match l with
  | a0 :: a1 :: a2 :: a3 :: s1 :: b0 :: b1 :: s2 :: c0 :: c1 :: _ =>
    if a0.isDigit && a1.isDigit && a2.isDigit && a3.isDigit && s1 == '-' &&
        b0.isDigit && b1.isDigit && s2 == '-' && c0.isDigit && c1.isDigit then
      some [a0, a1, a2, a3, s1, b0, b1, s2, c0, c1]
    else none
  | _ => none

/-- Maximal digit run and remainder. -/
def digitRun (l : List Char) : List Char × List Char :=
  (l.takeWhile Char.isDigit, l.dropWhile Char.isDigit)

/-- Match attempt at one position for the US date token regex: one or two
digits, slash, one or two digits, slash, two to four digits. With the
following character classes disjoint from digits, regex backtracking reduces
to: each unbounded-side digit run must fit the counter exactly, and the
trailing run is capped at four. -/
def usTokenAt (l : List Char) : Option (List Char) :=
  let p1 := digitRun l
  if p1.1.length = 0 ∨ 2 < p1.1.length then none
  else
    match p1.2 with
    | '/' :: r2 =>
      let p2 := digitRun r2
      if p2.1.length = 0 ∨ 2 < p2.1.length then none
      else
        match p2.2 with
        | '/' :: r4 =>
          let p3 := digitRun r4
          if p3.1.length < 2 then none
          else some (p1.1 ++ ['/'] ++ p2.1 ++ ['/'] ++ p3.1.take 4)
        | _ => none
    | _ => none

/-- Match attempt at one position for the month-name token regex: three to
nine letters, whitespace, one or two digits, comma, optional whitespace,
four digits. Letter, whitespace and digit classes are pairwise disjoint, so
greedy matching with backtracking reduces to exact runs with the stated
bounds. -/
def monthTokenAt (l : List Char) : Option (List Char) :=
  let w := l.takeWhile Char.isAlpha
  let r1 := l.dropWhile Char.isAlpha
  if w.length < 3 ∨ 9 < w.length then none
  else
    let sp := r1.takeWhile pySpace
    let r2 := r1.dropWhile pySpace
    if sp.length = 0 then none
    else
      let d := r2.takeWhile Char.isDigit
      let r3 := r2.dropWhile Char.isDigit
      if d.length = 0 ∨ 2 < d.length then none
      else
        match r3 with
        | ',' :: r4 =>
          let sp2 := r4.takeWhile pySpace
          let r5 := r4.dropWhile pySpace
          let y := r5.takeWhile Char.isDigit
          if y.length < 4 then none
          else some (w ++ sp ++ d ++ [','] ++ sp2 ++ y.take 4)
        | _ => none

/-- The date-like token heuristic of _extract_tweet_date: the first pattern
(ISO, then US, then month name) that matches anywhere in the string wins. -/
def tokenSearch (s : List Char) : Option (List Char) :=
  match searchTok isoTokenAt s with
  | some t => some t
  | none =>
    match searchTok usTokenAt s with
    | some t => some t
    | none => searchTok monthTokenAt s

/-- Header variants recognized for the tweet date. -/
def tweetDateKeys : List String :=
  ["tweet date", "tweet_date", "tweetDate", "tweeted at", "tweeted_at", "tweetedAt"]

/-- PhantomBusterClient._extract_tweet_date: parse the tweet-date field, else
try a date-like token, else return the raw stripped string with no datetime. -/
def extractTweetDate (lib : PBContext) (row : Row) : Option ℚ × String :=
  let val := ciField row tweetDateKeys
  if val = "" then (none, "")
  else
    let s := pyStrip val
    match parseDate lib s with
    | some dt => (some dt, lib.isoDate dt)
    | none =>
      match tokenSearch s.data with
      | some tok =>
        match parseDate lib ⟨tok⟩ with
        | some dt2 => (some dt2, lib.isoDate dt2)
        | none => (none, ⟨tok⟩)
      | none => (none, s)

/-- One collected social-media entry. -/
structure PBEntry where
  source : String
  title : String
  description : String
  url : String
  published_date : String
  author : String
  raw_data : List (String × String)
deriving DecidableEq

/-- Title truncation: first hundred characters plus an ellipsis. -/
def pyTruncate (text : String) : String :=
  if 100 < text.data.length then (⟨text.data.take 100⟩ : String) ++ "..." else text

/-- Row text: text or content or message or title or the empty string. -/
def pbText (row : Row) : String :=
  firstTruthy row ["text", "content", "message", "title"]

/-- Twitter author chain: handle, username, author, poster, name. -/
def twitterAuthor (row : Row) : String :=
  firstTruthy row ["handle", "username", "author", "poster", "name"]

/-- Entry URL: the explicit tweet link when present, else the normalizer. -/
def twitterUrlOf (row : Row) : String :=
  let l := extractTweetLink row
  if l ≠ "" then l else normalizeTwitterUrl row

/-- The date used to gate a Twitter row, with its display string: the tweet
date field first, falling back to the generic key extraction. -/
def twitterGate (lib : PBContext) (row : Row) : Option ℚ × String :=
  let g := extractTweetDate lib row
  match g.1 with
  | some d => (some d, g.2)
  | none =>
    match extractDate lib row with
    | some d => (some d, lib.isoDate d)
    | none => (none, "")

/-- Per-row body of the _parse_twitter_data loops (identical for the JSON and
CSV paths): keep the row only when its gate date is recent. -/
def twitterStep (lib : PBContext) (st : String) (row : Row) : Option PBEntry :=
  let g := twitterGate lib row
  if isRecent lib g.1 then
    some
      { source := "Twitter (" ++ st ++ ")"
        title := pyTruncate (pbText row)
        description := pbText row
        url := twitterUrlOf row
        published_date := g.2
        author := twitterAuthor row
        raw_data := row }
  else none

/-- The row loop of _parse_twitter_data over a list of decoded rows. -/
def parseTwitterRows (lib : PBContext) (st : String) (rows : List Row) : List PBEntry :=
  rows.filterMap (twitterStep lib st)

/-- LinkedIn author chain: author, username, name. -/
def linkedinAuthor (row : Row) : String :=
  firstTruthy row ["author", "username", "name"]

/-- Per-row body of the _parse_linkedin_data loops (identical for the JSON
and CSV paths). -/
def linkedinStep (lib : PBContext) (row : Row) : Option PBEntry :=
  let dt := extractDate lib row
  if isRecent lib dt then
    some
      { source := "LinkedIn"
        title := pyTruncate (pbText row)
        description := pbText row
        url := firstTruthy row ["url", "link", "postUrl"]
        published_date :=
          match dt with
          | some d => lib.isoDateTime d
          | none => ""
        author := linkedinAuthor row
        raw_data := row }
  else none

/-- The row loop of _parse_linkedin_data over a list of decoded rows. -/
def parseLinkedinRows (lib : PBContext) (rows : List Row) : List PBEntry :=
  rows.filterMap (linkedinStep lib)

/-- A content entry as seen by ContentProcessor: title and description default
to the empty string under entry.get, while source, tag and url may be absent
(Python None). -/
structure Entry where
  title : String := ""
  description : String := ""
  source : Option String := none
  tag : Option String := none
  url : Option String := none
  published_date : String := ""
  author : String := ""
deriving DecidableEq

/-- The ten keywords configured in ContentProcessor.__init__. -/
def keywords : List String :=
  ["Leave Delaware", "Delaware Taxes", "Delaware Court of Chancery",
   "Companies reincorporating in Texas", "Companies reincorporating in Nevada",
   "Delaware incorporation", "Corporate law news", "RelocateFromDelaware",
   "LeaveDelaware", "corporate relocation"]

/-- The lowered concatenation of title, a space and description. -/
def textContent (e : Entry) : String := lowS (e.title ++ " " ++ e.description)

/-- The lowered source string, with None read as empty. -/
def sourceStr (e : Entry) : String := lowS (e.source.getD "")

/-- The lowered tag string, with None read as empty. -/
def tagStr (e : Entry) : String := lowS (e.tag.getD "")

/-- The is_x_post test of _filter_by_keywords. -/
def isXPost (e : Entry) : Bool :=
  strHas (sourceStr e) "twitter" || tagStr e == "x post" || strHas (sourceStr e) "x post"

/-- Whether the entry text mentions the excluded handle. -/
def mentionsHandle (e : Entry) : Bool := strHas (textContent e) "@leavedelaware"

/-- The coarse keyword check: some configured keyword occurs, lowered, in the
entry text. -/
def hasKeyword (e : Entry) : Bool :=
  keywords.any (fun k => strHas (textContent e) (lowS k))

/-- Outcome of fetching and parsing one page, abstracting the requests call
and the BeautifulSoup main-content extraction of
_validate_article_main_content: either some exception was raised, or a
response arrived with a status code, the extracted main article text and the
canonical URL found in the page head (if any). -/
inductive FetchOutcome where
  | raises : FetchOutcome
  | response (status : ℕ) (mainText : String) (canonical : Option String) : FetchOutcome

/-- ContentProcessor._validate_article_main_content: a missing or empty URL
is reported not relevant with no canonical URL; an exception or a non-2xx
status reports relevant with no canonical URL; a successful fetch reports
whether some keyword occurs in the lowered main text, with the canonical
URL. -/
def validateMainContent (fetch : String → FetchOutcome) (url : Option String) :
    Bool × Option String :=
  match url with
  | none => (false, none)
  | some u =>
    if u = "" then (false, none)
    else
      match fetch (normalizeGenericUrl u) with
      | .raises => (true, none)
      | .response st text canon =>
        if 200 ≤ st ∧ st < 300 then
          (keywords.any (fun k => strHas (lowS text) (lowS k)), canon)
        else (true, none)

/-- Replace the url field by the canonical URL when one was found (Python
truthiness: present and non-empty). -/
def applyCanon (e : Entry) (canon : Option String) : Entry :=
  match canon with
  | some c => if c ≠ "" then { e with url := some c } else e
  | none => e

/-- Per-entry body of the _filter_by_keywords loop. The validate argument is
the ARTICLE_VALIDATE_MAIN_CONTENT environment check (value different from
the string 0). -/
def filterStep (validate : Bool) (fetch : String → FetchOutcome) (e : Entry) : Option Entry :=
  if isXPost e && mentionsHandle e then none
  else if !hasKeyword e then none
  else if validate && strHas (sourceStr e) "rss" then
    let vr := validateMainContent fetch e.url
    if !vr.1 then none else some (applyCanon e vr.2)
  else some e

/-- ContentProcessor._filter_by_keywords over a list of entries. -/
def filterByKeywords (validate : Bool) (fetch : String → FetchOutcome)
    (entries : List Entry) : List Entry :=
  entries.filterMap (filterStep validate fetch)

/-- Tag removal pass of _clean_html_tags: each maximal angle-bracket group
with a non-empty body is deleted (regex with left angle, one or more
non-right-angle characters, right angle); fuel is the list length, which
bounds the number of steps. -/
def stripTagsFuel : ℕ → List Char → List Char
  | 0, l => l
  | _ + 1, [] => []
  | n + 1, c :: t =>
    if c == '<' then
      match splitFirst '>' t with
      | some (inner, rest) =>
        if inner ≠ [] then stripTagsFuel n rest else c :: stripTagsFuel n t
      | none => c :: stripTagsFuel n t
    else c :: stripTagsFuel n t

/-- The HTML entity replacements of _clean_html_tags, in dict order. -/
def htmlEntities : List (String × String) :=
  [("&amp;", "&"), ("&lt;", "<"), ("&gt;", ">"), ("&quot;", "\""),
   ("&#39;", "\x27"), ("&nbsp;", " ")]

/-- Python str.split with no argument: maximal non-whitespace runs. -/
def pyWords (l : List Char) : List (List Char) :=
  (l.splitOnP pySpace).filter (fun w => !w.isEmpty)

/-- Join words with single spaces. -/
def joinSp : List (List Char) → List Char
  | [] => []
  | [w] => w
  | w :: ws => w ++ ' ' :: joinSp ws

/-- ContentProcessor._clean_html_tags: empty input returned unchanged, else
strip tags, replace entities and normalize whitespace. -/
def cleanHtmlTags (s : String) : String :=
  if s = "" then s
  else
    let noTags : String := ⟨stripTagsFuel s.data.length s.data⟩
    let deEnt := htmlEntities.foldl (fun acc p => replaceS acc p.1 p.2) noTags
    ⟨joinSp (pyWords deEnt.data)⟩

/-- ContentProcessor._generate_title with the OpenAI call (including its
internal fallbacks) abstracted as an oracle: a title longer than ten
characters that does not start with http is kept. -/
def generateTitle (gen : Entry → String) (e : Entry) : String :=
  if e.title ≠ "" ∧ 10 < e.title.data.length ∧ isPre "http".data e.title.data = false then
    e.title
  else gen e

/-- ContentProcessor._determine_tag. -/
def determineTag (e : Entry) : String :=
  let s := lowS (e.source.getD "")
  if strHas s "twitter" || strHas s "x post" then "X Post"
  else if strHas s "linkedin" then "LinkedIn"
  else if strHas s "rss" then "Article"
  else "Article"

/-- A processed entry as produced by _process_single_entry. -/
structure ProcessedEntry where
  tag : String
  title : String
  summary : String
  url : String
  source : String
  published_date : String
  author : String
  original_entry : Entry
deriving DecidableEq

/-- The entry with HTML cleaned out of title and description. -/
def cleanedOf (e : Entry) : Entry :=
  { e with title := cleanHtmlTags e.title, description := cleanHtmlTags e.description }

/-- ContentProcessor._process_single_entry with the two OpenAI calls as
oracles: X posts get an empty summary, every URL goes through the generic
normalizer. -/
def processSingleEntry (genTitle genSummary : Entry → String) (e : Entry) : ProcessedEntry :=
  let c := cleanedOf e
  let t := generateTitle genTitle c
  let tag := determineTag c
  let summary := if tag = "X Post" then "" else genSummary c
  { tag := tag
    title := cleanHtmlTags t
    summary := cleanHtmlTags summary
    url := normalizeGenericUrl (e.url.getD "")
    source := e.source.getD ""
    published_date := e.published_date
    author := e.author
    original_entry := e }

/-- Lexicographic order on character lists by code point, as Python string
comparison. -/
def leChars : List Char → List Char → Bool
  | [], _ => true
  | _ :: _, [] => false
  | a :: as, b :: bs =>
    if a.toNat < b.toNat then true
    else if b.toNat < a.toNat then false
    else leChars as bs

/-- Comparator of the sorted call in format_digest: descending by the
published_date string (reverse=True keeps ties in input order, as the stable
merge sort does). -/
def digestSortLe (a b : ProcessedEntry) : Bool :=
  leChars b.published_date.data a.published_date.data

/-- One entry of the plain-text digest. -/
def formatTextEntry (i : ℕ) (e : ProcessedEntry) : String :=
  (toString i ++ ". *[" ++ e.tag ++ "]* " ++ e.title ++ "\n") ++
    (if e.tag = "X Post" then
      (if e.published_date ≠ "" then "   🕒 Posted: " ++ e.published_date ++ "\n" else "")
    else "   " ++ e.summary ++ "\n") ++
    ("   🔗 " ++ e.url ++ "\n")

/-- Join with newlines, as a Python str.join. -/
def joinNl : List String → String
  | [] => ""
  | [w] => w
  | w :: ws => w ++ "\n" ++ joinNl ws

/-- DigestFormatter._format_text_digest. The long date string rendered from
datetime.now is a parameter. -/
def formatTextDigest (todayLong : String) (entries : List ProcessedEntry) : String :=
  ("📰 *Leave Delaware Daily Digest - " ++ todayLong ++ "*\n" ++
    "Found " ++ toString entries.length ++ " relevant items today\n\n") ++
    joinNl (entries.mapIdx fun i e => formatTextEntry (i + 1) e)

/-- The style and header block of the HTML digest (f-string braces written as
their escaped character codes). -/
def htmlHead (todayLong : String) (n : ℕ) : String :=
  "\n        <html>\n        <head>\n            <style>\n                body \x7b font-family: Arial, sans-serif; line-height: 1.6; color: #333; \x7d\n                .header \x7b background-color: #f4f4f4; padding: 20px; border-radius: 5px; margin-bottom: 20px; \x7d\n                .entry \x7b margin-bottom: 25px; padding: 15px; border-left: 4px solid #007cba; background-color: #f9f9f9; \x7d\n                .tag \x7b background-color: #007cba; color: white; padding: 3px 8px; border-radius: 3px; font-size: 12px; \x7d\n                .title \x7b font-weight: bold; margin: 10px 0 5px 0; color: #2c3e50; \x7d\n                .summary \x7b margin: 10px 0; \x7d\n                .url \x7b margin-top: 10px; \x7d\n                .url a \x7b color: #007cba; text-decoration: none; \x7d\n                .url a:hover \x7b text-decoration: underline; \x7d\n                .meta \x7b color: #666; font-size: 12px; margin: 6px 0; \x7d\n            </style>\n        </head>\n        <body>\n            <div class=\"header\">\n                <h2>📰 Leave Delaware Daily Digest</h2>\n                <p><strong>Date:</strong> " ++ todayLong ++ "</p>\n                <p><strong>Total Items:</strong> " ++ toString n ++ "</p>\n            </div>\n        "

/-- One entry of the HTML digest. -/
def formatHtmlEntry (i : ℕ) (e : ProcessedEntry) : String :=
  if e.tag = "X Post" then
    (let meta :=
      if e.published_date ≠ "" then
        "<div class=\"meta\">🕒 Posted: " ++ e.published_date ++ "</div>"
      else ""
    "\n                <div class=\"entry\">\n                    <span class=\"tag\">" ++
      e.tag ++ "</span>\n                    <div class=\"title\">" ++ toString i ++ ". " ++
      e.title ++ "</div>\n                    " ++ meta ++
      "\n                    <div class=\"url\"><a href=\"" ++ e.url ++
      "\" target=\"_blank\">Read More →</a></div>\n                </div>\n                ")
  else
    "\n                <div class=\"entry\">\n                    <span class=\"tag\">" ++
      e.tag ++ "</span>\n                    <div class=\"title\">" ++ toString i ++ ". " ++
      e.title ++ "</div>\n                    <div class=\"summary\">" ++ e.summary ++
      "</div>\n                    <div class=\"url\"><a href=\"" ++ e.url ++
      "\" target=\"_blank\">Read More →</a></div>\n                </div>\n                "

/-- Concatenation of the per-entry HTML blocks (the += loop). -/
def joinAll : List String → String
  | [] => ""
  | w :: ws => w ++ joinAll ws

/-- DigestFormatter._format_html_digest. -/
def formatHtmlDigest (todayLong : String) (entries : List ProcessedEntry) : String :=
  htmlHead todayLong entries.length ++
    joinAll (entries.mapIdx fun i e => formatHtmlEntry (i + 1) e) ++
    "\n        </body>\n        </html>\n        "

/-- The digest record assembled by DigestFormatter. -/
structure Digest where
  date : String
  total_entries : ℕ
  formatted_text : String
  formatted_html : String
  entries : List ProcessedEntry
deriving DecidableEq

/-- DigestFormatter._create_empty_digest. The two rendered timestamps of
datetime.now are parameters. -/
def createEmptyDigest (todayIso todayLong : String) : Digest :=
  { date := todayIso
    total_entries := 0
    formatted_text :=
      "📰 *Leave Delaware Daily Digest - " ++ todayLong ++ "*\n\nNo relevant news found today."
    formatted_html :=
      "\n        <html>\n        <body style=\"font-family: Arial, sans-serif;\">\n            <h2>📰 Leave Delaware Daily Digest</h2>\n            <p><strong>Date:</strong> " ++
        todayLong ++ "</p>\n            <p>No relevant news found today.</p>\n        </body>\n        </html>\n        "
    entries := [] }

/-- DigestFormatter.format_digest: the empty digest on an empty list, else
the stable descending sort by published_date with both renderings. -/
def formatDigest (todayIso todayLong : String) (entries : List ProcessedEntry) : Digest :=
  if entries = [] then createEmptyDigest todayIso todayLong
  else
    let sortedEntries := entries.mergeSort digestSortLe
    { date := todayIso
      total_entries := sortedEntries.length
      formatted_text := formatTextDigest todayLong sortedEntries
      formatted_html := formatHtmlDigest todayLong sortedEntries
      entries := sortedEntries }

/-- Outcome of a Python call that either returns or raises. -/
inductive PyResult (α : Type) where
  | ok (val : α) : PyResult α
  | exn (msg : String) : PyResult α

/-- SlackSender.send_digest with the chat client as an oracle: the whole body
is wrapped in try, so the function returns a boolean and never raises; any
API error or other exception yields false. -/
def slackSendDigest (post : Digest → PyResult Unit) (d : Digest) : Bool :=
  match post d with
  | .ok _ => true
  | .exn _ => false

/-- The recipient loop of GmailSender.send_digest: blank recipients are
skipped, the first exception aborts the loop. -/
def gmailLoop (send : String → Digest → PyResult Unit) (d : Digest) :
    List String → PyResult Unit
  | [] => .ok ()
  | r :: rs =>
    if pyStrip r ≠ "" then
      match send (pyStrip r) d with
      | .ok _ => gmailLoop send d rs
      | .exn m => .exn m
    else gmailLoop send d rs

/-- GmailSender.send_digest with the Gmail API as an oracle: true when the
loop completes, false when any exception is caught. -/
def gmailSendDigest (send : String → Digest → PyResult Unit)
    (recipients : List String) (d : Digest) : Bool :=
  match gmailLoop send d recipients with
  | .ok _ => true
  | .exn _ => false

/-- The delivery step of main(): the same digest goes to Slack, then to
Gmail, each attempt recorded with its boolean result in order. -/
def mainDeliver (post : Digest → PyResult Unit) (send : String → Digest → PyResult Unit)
    (recipients : List String) (d : Digest) : List (String × Bool) :=
  [("slack", slackSendDigest post d), ("gmail", gmailSendDigest send recipients d)]

theorem isPre_nil_pat (l : List Char) : isPre [] l = true := by
  cases l <;> rfl

theorem isPre_eq_true_iff {p l : List Char} : isPre p l = true ↔ ∃ r, l = p ++ r := by
  induction p generalizing l with
  | nil => simp [isPre_nil_pat]
  | cons x xs ih =>
    cases l with
    | nil =>
      simp only [isPre]
      constructor
      · intro h; cases h
      · rintro ⟨r, hr⟩; cases hr
    | cons y ys =>
      simp only [isPre, Bool.and_eq_true, beq_iff_eq]
      rw [ih]
      constructor
      · rintro ⟨hxy, r, hr⟩
        exact ⟨r, by rw [hxy, hr]; rfl⟩
      · rintro ⟨r, hr⟩
        rw [List.cons_append] at hr
        cases hr
        exact ⟨rfl, r, rfl⟩

theorem isPre_self_append (p r : List Char) : isPre p (p ++ r) = true :=
  isPre_eq_true_iff.mpr ⟨r, rfl⟩

theorem isPre_append_of {p a : List Char} (b : List Char) (h : isPre p a = true) :
    isPre p (a ++ b) = true := by
  obtain ⟨r, hr⟩ := isPre_eq_true_iff.mp h
  exact isPre_eq_true_iff.mpr ⟨r ++ b, by rw [hr, List.append_assoc]⟩

theorem isSub_nil_pat (l : List Char) : isSub [] l = true := by
  cases l <;> simp [isSub, isPre_nil_pat]

theorem isSub_of_isPre {p l : List Char} (h : isPre p l = true) : isSub p l = true := by
  cases l with
  | nil =>
    obtain ⟨r, hr⟩ := isPre_eq_true_iff.mp h
    have : p = [] := by
      cases p with
      | nil => rfl
      | cons x xs => cases hr
    rw [this]; exact isSub_nil_pat []
  | cons c t => simp [isSub, h]

theorem isSub_cons_tail {p t : List Char} (c : Char) (h : isSub p t = true) :
    isSub p (c :: t) = true := by
  simp [isSub, h]

theorem isSub_append_left {p s : List Char} (x : List Char) (h : isSub p s = true) :
    isSub p (x ++ s) = true := by
  induction x with
  | nil => exact h
  | cons c cs ih => exact isSub_cons_tail c ih

theorem isSub_append_right {p s : List Char} (t : List Char) (h : isSub p s = true) :
    isSub p (s ++ t) = true := by
  induction s with
  | nil =>
    have : p = [] := by
      cases p with
      | nil => rfl
      | cons x xs => simp [isSub, isPre] at h
    rw [this]; exact isSub_nil_pat _
  | cons c cs ih =>
    simp only [isSub, Bool.or_eq_true] at h
    rcases h with h | h
    · exact isSub_of_isPre (isPre_append_of t h)
    · exact isSub_cons_tail c (ih h)

theorem isSub_mid (x p y : List Char) : isSub p (x ++ (p ++ y)) = true :=
  isSub_append_left x (isSub_of_isPre (isPre_self_append p y))

theorem strHas_mid (x p y : String) : strHas (x ++ (p ++ y)) p = true := by
  unfold strHas
  rw [String.data_append, String.data_append]
  exact isSub_mid x.data p.data y.data

theorem lowL_append (a b : List Char) : lowL (a ++ b) = lowL a ++ lowL b := by
  simp [lowL]

theorem lowL_eq_cons {c : Char} {cs l : List Char} (h : lowL l = c :: cs) :
    ∃ d ds, l = d :: ds ∧ d.toLower = c ∧ lowL ds = cs := by
  cases l with
  | nil => simp [lowL] at h
  | cons d ds =>
    simp only [lowL, List.map_cons, List.cons.injEq] at h
    exact ⟨d, ds, rfl, h.1, h.2⟩

theorem beq_false_of_toLower_ne {a b : Char} (h : a.toLower ≠ b.toLower) :
    (b == a) = false := by
  cases hb : b == a with
  | false => rfl
  | true => exact absurd (congrArg Char.toLower (eq_of_beq hb)).symm h

theorem replaceFuel_nil (pat rep : List Char) (n : ℕ) : replaceFuel pat rep n [] = [] := by
  cases n <;> rfl

theorem replaceFuel_pres (pat rep : List Char) :
    ∀ (n m : ℕ) (s : List Char), (∀ i, i < n → isPre pat (s.drop i) = false) → n ≤ m →
      replaceFuel pat rep m s = s.take n ++ replaceFuel pat rep (m - n) (s.drop n) := by
  intro n
  induction n with
  | zero => intro m s _ _; simp
  | succ k ih =>
    intro m s h hm
    cases m with
    | zero => omega
    | succ m' =>
      cases s with
      | nil => simp [replaceFuel_nil]
      | cons c t =>
        have h0 : isPre pat (c :: t) = false := by simpa using h 0 (Nat.succ_pos k)
        rw [replaceFuel, if_neg (by simp [h0])]
        have ih' := ih m' t (fun i hi => by simpa using h (i + 1) (by omega)) (by omega)
        have hms : m' + 1 - (k + 1) = m' - k := by omega
        rw [ih', hms]
        simp [List.take_succ_cons, List.drop_succ_cons]

theorem dropWhile_eq_self_of {p : Char → Bool} {l : List Char}
    (h : ∀ c ∈ l, p c = false) : l.dropWhile p = l := by
  cases l with
  | nil => rfl
  | cons c t => simp [List.dropWhile_cons, h c (List.mem_cons_self c t)]

theorem stripL_eq_self {p : Char → Bool} {l : List Char}
    (h : ∀ c ∈ l, p c = false) : stripL p l = l := by
  unfold stripL dropEnd
  rw [dropWhile_eq_self_of h,
      dropWhile_eq_self_of (fun c hc => h c (List.mem_reverse.mp hc)), List.reverse_reverse]

theorem leChars_total (a b : List Char) : (leChars a b || leChars b a) = true := by
  induction a generalizing b with
  | nil => simp [leChars]
  | cons x xs ih =>
    cases b with
    | nil => simp [leChars]
    | cons y ys =>
      rcases Nat.lt_trichotomy x.toNat y.toNat with hlt | heq | hgt
      · simp [leChars, hlt]
      · simp only [leChars, heq, Nat.lt_irrefl, if_false]
        exact ih ys
      · simp [leChars, hgt, Nat.lt_asymm hgt]

theorem http_prefix_cases {s : String} (h : startsWithHttpCI s = true) :
    (∃ c0 c1 c2 c3 c4 c5 c6 r, s.data = c0 :: c1 :: c2 :: c3 :: c4 :: c5 :: c6 :: r ∧
      c0.toLower = 'h' ∧ c1.toLower = 't' ∧ c2.toLower = 't' ∧ c3.toLower = 'p' ∧
      c4.toLower = ':' ∧ c5.toLower = '/' ∧ c6.toLower = '/') ∨
    (∃ c0 c1 c2 c3 c4 c5 c6 c7 r, s.data = c0 :: c1 :: c2 :: c3 :: c4 :: c5 :: c6 :: c7 :: r ∧
      c0.toLower = 'h' ∧ c1.toLower = 't' ∧ c2.toLower = 't' ∧ c3.toLower = 'p' ∧
      c4.toLower = 's' ∧ c5.toLower = ':' ∧ c6.toLower = '/' ∧ c7.toLower = '/') := by
  unfold startsWithHttpCI at h
  rw [Bool.or_eq_true] at h
  rcases h with h | h
  · left
    obtain ⟨r, hr⟩ := isPre_eq_true_iff.mp h
    have hr2 : lowL s.data = 'h' :: 't' :: 't' :: 'p' :: ':' :: '/' :: '/' :: r := hr
    obtain ⟨d0, t0, he0, hl0, hrest0⟩ := lowL_eq_cons hr2
    obtain ⟨d1, t1, he1, hl1, hrest1⟩ := lowL_eq_cons hrest0
    obtain ⟨d2, t2, he2, hl2, hrest2⟩ := lowL_eq_cons hrest1
    obtain ⟨d3, t3, he3, hl3, hrest3⟩ := lowL_eq_cons hrest2
    obtain ⟨d4, t4, he4, hl4, hrest4⟩ := lowL_eq_cons hrest3
    obtain ⟨d5, t5, he5, hl5, hrest5⟩ := lowL_eq_cons hrest4
    obtain ⟨d6, t6, he6, hl6, _⟩ := lowL_eq_cons hrest5
    exact ⟨d0, d1, d2, d3, d4, d5, d6, t6,
      by rw [he0, he1, he2, he3, he4, he5, he6], hl0, hl1, hl2, hl3, hl4, hl5, hl6⟩
  · right
    obtain ⟨r, hr⟩ := isPre_eq_true_iff.mp h
    have hr2 : lowL s.data = 'h' :: 't' :: 't' :: 'p' :: 's' :: ':' :: '/' :: '/' :: r := hr
    obtain ⟨d0, t0, he0, hl0, hrest0⟩ := lowL_eq_cons hr2
    obtain ⟨d1, t1, he1, hl1, hrest1⟩ := lowL_eq_cons hrest0
    obtain ⟨d2, t2, he2, hl2, hrest2⟩ := lowL_eq_cons hrest1
    obtain ⟨d3, t3, he3, hl3, hrest3⟩ := lowL_eq_cons hrest2
    obtain ⟨d4, t4, he4, hl4, hrest4⟩ := lowL_eq_cons hrest3
    obtain ⟨d5, t5, he5, hl5, hrest5⟩ := lowL_eq_cons hrest4
    obtain ⟨d6, t6, he6, hl6, hrest6⟩ := lowL_eq_cons hrest5
    obtain ⟨d7, t7, he7, hl7, _⟩ := lowL_eq_cons hrest6
    exact ⟨d0, d1, d2, d3, d4, d5, d6, d7, t7,
      by rw [he0, he1, he2, he3, he4, he5, he6, he7],
      hl0, hl1, hl2, hl3, hl4, hl5, hl6, hl7⟩

theorem tw_pat_no_match_7 {pat : List Char}
    (hp : pat = "mobile.twitter.com".data ∨ pat = "twitter.com".data)
    {c0 c1 c2 c3 c4 c5 c6 : Char} {r : List Char}
    (h0 : c0.toLower = 'h') (h1 : c1.toLower = 't') (h2 : c2.toLower = 't')
    (h3 : c3.toLower = 'p') (h4 : c4.toLower = ':') (h5 : c5.toLower = '/')
    (h6 : c6.toLower = '/') :
    ∀ i, i < 7 → isPre pat ((c0 :: c1 :: c2 :: c3 :: c4 :: c5 :: c6 :: r).drop i) = false := by
  intro i hi
  rcases hp with hp | hp <;> subst hp <;> interval_cases i <;>
    simp only [List.drop, isPre] <;>
    first
      | (rw [beq_false_of_toLower_ne (by rw [h0]; decide)]; rfl)
      | (rw [beq_false_of_toLower_ne (by rw [h1]; decide)]; rfl)
      | (rw [beq_false_of_toLower_ne (by rw [h2]; decide)]; rfl)
      | (rw [beq_false_of_toLower_ne (by rw [h3]; decide)]; rfl)
      | (rw [beq_false_of_toLower_ne (by rw [h4]; decide)]; rfl)
      | (rw [beq_false_of_toLower_ne (by rw [h5]; decide)]; rfl)
      | (rw [beq_false_of_toLower_ne (by rw [h6]; decide)]; rfl)
      | (rw [show ('w' == c2) = false from beq_false_of_toLower_ne (by rw [h2]; decide)]
         simp)
      | (rw [show ('w' == c3) = false from beq_false_of_toLower_ne (by rw [h3]; decide)]
         simp)

theorem tw_pat_no_match_8 {pat : List Char}
    (hp : pat = "mobile.twitter.com".data ∨ pat = "twitter.com".data)
    {c0 c1 c2 c3 c4 c5 c6 c7 : Char} {r : List Char}
    (h0 : c0.toLower = 'h') (h1 : c1.toLower = 't') (h2 : c2.toLower = 't')
    (h3 : c3.toLower = 'p') (h4 : c4.toLower = 's') (h5 : c5.toLower = ':')
    (h6 : c6.toLower = '/') (h7 : c7.toLower = '/') :
    ∀ i, i < 8 →
      isPre pat ((c0 :: c1 :: c2 :: c3 :: c4 :: c5 :: c6 :: c7 :: r).drop i) = false := by
  intro i hi
  rcases hp with hp | hp <;> subst hp <;> interval_cases i <;>
    simp only [List.drop, isPre] <;>
    first
      | (rw [beq_false_of_toLower_ne (by rw [h0]; decide)]; rfl)
      | (rw [beq_false_of_toLower_ne (by rw [h1]; decide)]; rfl)
      | (rw [beq_false_of_toLower_ne (by rw [h2]; decide)]; rfl)
      | (rw [beq_false_of_toLower_ne (by rw [h3]; decide)]; rfl)
      | (rw [beq_false_of_toLower_ne (by rw [h4]; decide)]; rfl)
      | (rw [beq_false_of_toLower_ne (by rw [h5]; decide)]; rfl)
      | (rw [beq_false_of_toLower_ne (by rw [h6]; decide)]; rfl)
      | (rw [beq_false_of_toLower_ne (by rw [h7]; decide)]; rfl)
      | (rw [show ('w' == c2) = false from beq_false_of_toLower_ne (by rw [h2]; decide)]
         simp)
      | (rw [show ('w' == c3) = false from beq_false_of_toLower_ne (by rw [h3]; decide)]
         simp)

theorem replaceS_keeps_http (pat rep : String)
    (hp : pat.data = "mobile.twitter.com".data ∨ pat.data = "twitter.com".data)
    (s : String) (h : startsWithHttpCI s = true) :
    startsWithHttpCI (replaceS s pat rep) = true := by
  rcases http_prefix_cases h with
    ⟨c0, c1, c2, c3, c4, c5, c6, r, hs, h0, h1, h2, h3, h4, h5, h6⟩ |
    ⟨c0, c1, c2, c3, c4, c5, c6, c7, r, hs, h0, h1, h2, h3, h4, h5, h6, h7⟩
  · have hlen : 7 ≤ s.data.length := by rw [hs]; simp
    have hpres := replaceFuel_pres pat.data rep.data 7 s.data.length s.data
      (by rw [hs]; exact tw_pat_no_match_7 hp h0 h1 h2 h3 h4 h5 h6) hlen
    unfold startsWithHttpCI replaceS replaceL
    rw [Bool.or_eq_true]
    left
    show isPre "http://".data (lowL (replaceFuel pat.data rep.data s.data.length s.data)) = true
    rw [hpres, hs]
    simp only [List.take_succ_cons, List.take_zero, lowL_append]
    rw [show lowL [c0, c1, c2, c3, c4, c5, c6] =
      ['h', 't', 't', 'p', ':', '/', '/'] by
        simp [lowL, lowC, h0, h1, h2, h3, h4, h5, h6]]
    exact isPre_self_append "http://".data _
  · have hlen : 8 ≤ s.data.length := by rw [hs]; simp
    have hpres := replaceFuel_pres pat.data rep.data 8 s.data.length s.data
      (by rw [hs]; exact tw_pat_no_match_8 hp h0 h1 h2 h3 h4 h5 h6 h7) hlen
    unfold startsWithHttpCI replaceS replaceL
    rw [Bool.or_eq_true]
    right
    show isPre "https://".data (lowL (replaceFuel pat.data rep.data s.data.length s.data)) = true
    rw [hpres, hs]
    simp only [List.take_succ_cons, List.take_zero, lowL_append]
    rw [show lowL [c0, c1, c2, c3, c4, c5, c6, c7] =
      ['h', 't', 't', 'p', 's', ':', '/', '/'] by
        simp [lowL, lowC, h0, h1, h2, h3, h4, h5, h6, h7]]
    exact isPre_self_append "https://".data _

theorem xcomRewrite_keeps_http (s : String) (h : startsWithHttpCI s = true) :
    startsWithHttpCI (xcomRewrite s) = true := by
  unfold xcomRewrite
  exact replaceS_keeps_http "twitter.com" "x.com" (Or.inr rfl) _
    (replaceS_keeps_http "mobile.twitter.com" "twitter.com" (Or.inl rfl) s h)

theorem ensureScheme_http (w : String) (h : ensureScheme w ≠ "") :
    startsWithHttpCI (ensureScheme w) = true := by
  unfold ensureScheme at h ⊢
  by_cases hw : w = ""
  · rw [if_pos hw] at h; exact absurd hw h
  · rw [if_neg hw] at h ⊢
    by_cases h2 : isPre "//".data w.data = true
    · rw [if_pos (by exact h2)] at h ⊢
      obtain ⟨r, hr⟩ := isPre_eq_true_iff.mp h2
      unfold startsWithHttpCI
      rw [Bool.or_eq_true]
      right
      rw [String.data_append, hr]
      show isPre "https://".data (lowL ("https:".data ++ '/' :: '/' :: r)) = true
      rw [lowL_append]
      rw [show lowL "https:".data = "https:".data from rfl]
      rw [show lowL ('/' :: '/' :: r) = '/' :: '/' :: lowL r from rfl]
      exact isPre_self_append "https://".data (lowL r)
    · rw [if_neg (by exact h2)] at h ⊢
      by_cases h3 : startsWithHttpCI w = false
      · rw [if_pos (by rw [h3])] at h ⊢
        unfold startsWithHttpCI
        rw [Bool.or_eq_true]
        right
        rw [String.data_append, lowL_append]
        rw [show lowL "https://".data = "https://".data from rfl]
        exact isPre_self_append "https://".data _
      · rw [if_neg (by simpa using h3)] at h ⊢
        simpa using h3

theorem leChars_trans : ∀ (a b c : List Char), leChars a b = true → leChars b c = true →
    leChars a c = true := by
  intro a
  induction a with
  | nil => intro b c _ _; simp [leChars]
  | cons x xs ih =>
    intro b c hab hbc
    cases b with
    | nil => simp [leChars] at hab
    | cons y ys =>
      cases c with
      | nil => simp [leChars] at hbc
      | cons z zs =>
        simp only [leChars] at hab hbc ⊢
        by_cases h1 : x.toNat < y.toNat
        · by_cases h2 : y.toNat < z.toNat
          · rw [if_pos (by omega)]
          · rw [if_neg h2] at hbc
            by_cases h3 : z.toNat < y.toNat
            · rw [if_pos h3] at hbc; exact absurd hbc (by simp)
            · rw [if_pos (by omega)]
        · rw [if_neg h1] at hab
          by_cases h1b : y.toNat < x.toNat
          · rw [if_pos h1b] at hab; exact absurd hab (by simp)
          · rw [if_neg h1b] at hab
            by_cases h2 : y.toNat < z.toNat
            · rw [if_pos (by omega)]
            · rw [if_neg h2] at hbc
              by_cases h3 : z.toNat < y.toNat
              · rw [if_pos h3] at hbc; exact absurd hbc (by simp)
              · rw [if_neg h3] at hbc
                rw [if_neg (by omega), if_neg (by omega)]
                exact ih ys zs hab hbc

/-- C1 counterexample: an X post whose text contains both the configured
keyword Leave Delaware and the handle at-LeaveDelaware is dropped by
_filter_by_keywords, so keyword occurrence alone does not characterize the
kept entries. -/
theorem C1_counterexample :
    hasKeyword { title := "Leave Delaware", description := "Ask @LeaveDelaware why", source := some "Twitter (twitter_search)" } = true ∧
    filterStep true (fun _ => FetchOutcome.raises) { title := "Leave Delaware", description := "Ask @LeaveDelaware why", source := some "Twitter (twitter_search)" } = none ∧
    filterByKeywords true (fun _ => FetchOutcome.raises) [{ title := "Leave Delaware", description := "Ask @LeaveDelaware why", source := some "Twitter (twitter_search)" }] = [] := by
  decide

/-- C1 amended: there are ten configured keywords, and an entry is kept by
the keyword filter if and only if some keyword occurs (lowered) in the
title-space-description text, the entry is not an X post mentioning
at-LeaveDelaware, and, when main-content validation applies (flag on and an
rss source), the validation reports the entry relevant. -/
theorem C1_keyword_filter_amended (validate : Bool) (fetch : String → FetchOutcome)
    (e : Entry) :
    keywords.length = 10 ∧
    (filterStep validate fetch e).isSome =
      (hasKeyword e && !(isXPost e && mentionsHandle e) &&
        (!(validate && strHas (sourceStr e) "rss") || (validateMainContent fetch e.url).1)) := by
  refine ⟨rfl, ?_⟩
  cases h1 : isXPost e && mentionsHandle e <;>
    cases h2 : hasKeyword e <;>
      cases h3 : validate && strHas (sourceStr e) "rss" <;>
        cases h4 : (validateMainContent fetch e.url).1 <;>
          simp [filterStep, h1, h2, h3, h4]

/-- C9: an X post (source containing twitter or x post, or tag equal to
x post) whose lowered text contains at-leavedelaware is dropped by the
keyword filter, regardless of the keywords present. -/
theorem C9_x_post_exclusion (validate : Bool) (fetch : String → FetchOutcome)
    (e : Entry) (es : List Entry) (hx : isXPost e = true) (hm : mentionsHandle e = true) :
    filterStep validate fetch e = none ∧
    filterByKeywords validate fetch (e :: es) = filterByKeywords validate fetch es := by
  have hs : filterStep validate fetch e = none := by
    simp [filterStep, hx, hm]
  exact ⟨hs, by simp [filterByKeywords, List.filterMap_cons, hs]⟩

/-- C9 witness: a concrete X post mentioning the handle, with a keyword in
its title, is dropped. -/
theorem C9_x_post_exclusion_witness :
    filterStep true (fun _ => FetchOutcome.raises) { title := "Delaware Taxes rise", description := "cc @LeaveDelaware", source := some "X Post scrape" } = none ∧
    filterByKeywords true (fun _ => FetchOutcome.raises) [{ title := "Delaware Taxes rise", description := "cc @LeaveDelaware", source := some "X Post scrape" }] =
      filterByKeywords true (fun _ => FetchOutcome.raises) [] :=
  C9_x_post_exclusion true (fun _ => FetchOutcome.raises) { title := "Delaware Taxes rise", description := "cc @LeaveDelaware", source := some "X Post scrape" } [] (by decide) (by decide)

/-- C3 counterexample: with a fetch oracle that always raises, so that no
page is ever successfully fetched, a missing or empty URL is still reported
not relevant (the entry is rejected), contradicting both the
any-exception-implies-relevant reading and the rejected-only-after-a-fetch
reading of the claim. -/
theorem C3_counterexample :
    validateMainContent (fun _ => FetchOutcome.raises) none = (false, none) ∧
    validateMainContent (fun _ => FetchOutcome.raises) (some "") = (false, none) := by
  decide

/-- C3 amended: for every non-empty URL the validation fails open — an
exception or a non-2xx status reports the entry relevant with no canonical
URL, and the entry is rejected only when a page was fetched with a 2xx
status and no keyword occurs in the extracted main text; a missing or empty
URL, however, is always rejected without any fetch. -/
theorem C3_validation_fail_open_amended (fetch : String → FetchOutcome) (u : String)
    (hu : u ≠ "") :
    (fetch (normalizeGenericUrl u) = FetchOutcome.raises →
      validateMainContent fetch (some u) = (true, none)) ∧
    (∀ st text canon, fetch (normalizeGenericUrl u) = FetchOutcome.response st text canon →
      ¬(200 ≤ st ∧ st < 300) → validateMainContent fetch (some u) = (true, none)) ∧
    ((validateMainContent fetch (some u)).1 = false →
      ∃ st text canon, fetch (normalizeGenericUrl u) = FetchOutcome.response st text canon ∧
        (200 ≤ st ∧ st < 300) ∧
        keywords.any (fun k => strHas (lowS text) (lowS k)) = false) ∧
    validateMainContent fetch none = (false, none) ∧
    validateMainContent fetch (some "") = (false, none) := by
  refine ⟨?_, ?_, ?_, rfl, rfl⟩
  · intro hf
    simp [validateMainContent, hu, hf]
  · intro st text canon hf hst
    simp [validateMainContent, hu, hf, hst]
  · intro hfalse
    rw [validateMainContent] at hfalse
    rw [if_neg hu] at hfalse
    cases hf : fetch (normalizeGenericUrl u) with
    | raises => rw [hf] at hfalse; simp at hfalse
    | response st text canon =>
      rw [hf] at hfalse
      by_cases hst : 200 ≤ st ∧ st < 300
      · refine ⟨st, text, canon, rfl, hst, ?_⟩
        simpa [hst] using hfalse
      · simp [hst] at hfalse

/-- C3 witness: a concrete non-empty URL with an always-raising fetch is
kept (reported relevant, no canonical URL). -/
theorem C3_validation_fail_open_witness :
    validateMainContent (fun _ => FetchOutcome.raises) (some "http://example.com") =
      (true, none) := by
  have h := C3_validation_fail_open_amended (fun _ => FetchOutcome.raises)
    "http://example.com" (by decide)
  exact h.1 rfl

/-- C4: for an entry that reaches and passes the coarse keyword check (it is
not an excluded X post and has a keyword), full-article validation decides
exactly when the environment flag is on and the source contains rss, in
which case the kept entry carries the canonical URL when one was found;
otherwise the entry is kept unchanged. -/
theorem C4_validation_gating (validate : Bool) (fetch : String → FetchOutcome) (e : Entry)
    (hnx : (isXPost e && mentionsHandle e) = false) (hkw : hasKeyword e = true) :
    ((validate && strHas (sourceStr e) "rss") = true →
      filterStep validate fetch e =
        (if (validateMainContent fetch e.url).1 then
          some (applyCanon e (validateMainContent fetch e.url).2)
        else none)) ∧
    ((validate && strHas (sourceStr e) "rss") = false →
      filterStep validate fetch e = some e) ∧
    (∀ c, c ≠ "" → applyCanon e (some c) = { e with url := some c }) ∧
    applyCanon e none = e := by
  refine ⟨?_, ?_, fun c hc => by simp [applyCanon, hc], rfl⟩
  · intro h3
    cases h4 : (validateMainContent fetch e.url).1 <;>
      simp [filterStep, hnx, hkw, h3, h4]
  · intro h3
    simp [filterStep, hnx, hkw, h3]

/-- C4 witness: a concrete non-rss entry with a keyword is kept unchanged
without any validation. -/
theorem C4_validation_gating_witness :
    filterStep false (fun _ => FetchOutcome.raises)
      { title := "Delaware Taxes news today" } =
      some { title := "Delaware Taxes news today" } := by
  have h := C4_validation_gating false (fun _ => FetchOutcome.raises)
    { title := "Delaware Taxes news today" } (by decide) (by decide)
  exact h.2.1 (by decide)

/-- C10: a processed entry tagged X Post has an empty summary and its
processing does not depend on the summary oracle; both digest renderings
show the posted date for an X Post with a date and are invariant under its
summary field, while an entry with any other tag renders its summary line in
both the text and the HTML digest. -/
theorem C10_x_post_rendering (gt gs gs2 : Entry → String) (e : Entry) (i : ℕ)
    (pe pe2 : ProcessedEntry)
    (hpe : pe.tag = "X Post") (hd : pe.published_date ≠ "") (h2 : pe2.tag ≠ "X Post") :
    ((processSingleEntry gt gs e).tag = "X Post" → (processSingleEntry gt gs e).summary = "") ∧
    (determineTag (cleanedOf e) = "X Post" →
      processSingleEntry gt gs e = processSingleEntry gt gs2 e) ∧
    strHas (formatTextEntry i pe) ("Posted: " ++ pe.published_date) = true ∧
    strHas (formatHtmlEntry i pe) ("Posted: " ++ pe.published_date) = true ∧
    (∀ s, formatTextEntry i { pe with summary := s } = formatTextEntry i pe) ∧
    (∀ s, formatHtmlEntry i { pe with summary := s } = formatHtmlEntry i pe) ∧
    strHas (formatTextEntry i pe2) ("   " ++ (pe2.summary ++ "\n")) = true ∧
    strHas (formatHtmlEntry i pe2) ("<div class=\"summary\">" ++ (pe2.summary ++ "</div>")) = true := by
  refine ⟨?_, ?_, ?_, ?_, ?_, ?_, ?_, ?_⟩
  · intro h
    have htag : (processSingleEntry gt gs e).tag = determineTag (cleanedOf e) := rfl
    rw [htag] at h
    show cleanHtmlTags (if determineTag (cleanedOf e) = "X Post" then ""
      else gs (cleanedOf e)) = ""
    rw [if_pos h]
    rfl
  · intro h
    simp [processSingleEntry, h]
  · rw [formatTextEntry, if_pos hpe, if_pos hd]
    unfold strHas
    simp only [String.data_append]
    simpa [List.append_assoc] using
      isSub_mid ((toString i ++ ". *[" ++ pe.tag ++ "]* " ++ pe.title ++ "\n").data ++
          "   🕒 ".data)
        ("Posted: ".data ++ pe.published_date.data)
        ("\n".data ++ ("   🔗 " ++ pe.url ++ "\n").data)
  · rw [formatHtmlEntry, if_pos hpe]
    rw [if_pos hd]
    unfold strHas
    simp only [String.data_append]
    simpa [List.append_assoc] using
      isSub_mid (("\n                <div class=\"entry\">\n                    <span class=\"tag\">").data ++
          pe.tag.data ++ ("</span>\n                    <div class=\"title\">").data ++
          (toString i).data ++ (". ").data ++ pe.title.data ++
          ("</div>\n                    ").data ++ "<div class=\"meta\">🕒 ".data)
        ("Posted: ".data ++ pe.published_date.data)
        (("</div>").data ++
          ("\n                    <div class=\"url\"><a href=\"").data ++ pe.url.data ++
          ("\" target=\"_blank\">Read More →</a></div>\n                </div>\n                ").data)
  · intro s
    simp [formatTextEntry, hpe]
  · intro s
    simp [formatHtmlEntry, hpe]
  · rw [formatTextEntry, if_neg h2]
    unfold strHas
    simp only [String.data_append]
    simpa [List.append_assoc] using
      isSub_mid ((toString i ++ ". *[" ++ pe2.tag ++ "]* " ++ pe2.title ++ "\n").data)
        ("   ".data ++ pe2.summary.data ++ "\n".data)
        (("   🔗 " ++ pe2.url ++ "\n").data)
  · rw [formatHtmlEntry, if_neg h2]
    unfold strHas
    simp only [String.data_append]
    simpa [List.append_assoc] using
      isSub_mid (("\n                <div class=\"entry\">\n                    <span class=\"tag\">").data ++
          pe2.tag.data ++ ("</span>\n                    <div class=\"title\">").data ++
          (toString i).data ++ (". ").data ++ pe2.title.data ++
          ("</div>\n                    ").data)
        ("<div class=\"summary\">".data ++ pe2.summary.data ++ "</div>".data)
        (("\n                    <div class=\"url\"><a href=\"").data ++ pe2.url.data ++
          ("\" target=\"_blank\">Read More →</a></div>\n                </div>\n                ").data)

/-- C10 witness: concrete X Post and Article entries instantiate the
rendering facts. -/
theorem C10_x_post_rendering_witness :
    strHas
      (formatTextEntry 1 { tag := "X Post", title := "t", summary := "", url := "u", source := "s", published_date := "2025-01-02", author := "a", original_entry := {} })
      ("Posted: " ++ ("2025-01-02" : String)) = true := by
  have h := C10_x_post_rendering (fun _ => "") (fun _ => "") (fun _ => "") {} 1
    { tag := "X Post", title := "t", summary := "", url := "u", source := "s", published_date := "2025-01-02", author := "a", original_entry := {} }
    { tag := "Article", title := "t", summary := "sum", url := "u", source := "s", published_date := "", author := "a", original_entry := {} }
    (by decide) (by decide) (by decide)
  exact h.2.2.1

theorem strHas_left (s t p : String) (h : strHas s p = true) : strHas (s ++ t) p = true := by
  unfold strHas at h ⊢
  rw [String.data_append]
  exact isSub_append_right t.data h

theorem strHas_right (s t p : String) (h : strHas t p = true) : strHas (s ++ t) p = true := by
  unfold strHas at h ⊢
  rw [String.data_append]
  exact isSub_append_left s.data h

theorem strHas_self_left (p t : String) : strHas (p ++ t) p = true := by
  unfold strHas
  rw [String.data_append]
  exact isSub_of_isPre (isPre_self_append p.data t.data)

/-- C2: format_digest yields the fixed empty digest (zero entries, empty
list, the no-relevant-news text and HTML) exactly on the empty input; on a
non-empty input the digest has total_entries equal to the input length
(hence non-zero), entries sorted descending by the published_date string and
a permutation of the input, and rendered text and HTML carrying the digest
header. -/
theorem C2_format_digest (ti tl : String) (entries : List ProcessedEntry)
    (h : entries ≠ []) :
    formatDigest ti tl [] = createEmptyDigest ti tl ∧
    (createEmptyDigest ti tl).total_entries = 0 ∧
    (createEmptyDigest ti tl).entries = [] ∧
    strHas (createEmptyDigest ti tl).formatted_text "No relevant news found today." = true ∧
    strHas (createEmptyDigest ti tl).formatted_html "No relevant news found today." = true ∧
    (formatDigest ti tl entries).total_entries = entries.length ∧
    (formatDigest ti tl entries).total_entries ≠ 0 ∧
    (formatDigest ti tl entries).entries.Pairwise
      (fun a b => leChars b.published_date.data a.published_date.data = true) ∧
    (formatDigest ti tl entries).entries.Perm entries ∧
    strHas (formatDigest ti tl entries).formatted_text
      "📰 *Leave Delaware Daily Digest - " = true ∧
    strHas (formatDigest ti tl entries).formatted_html "Leave Delaware Daily Digest" = true := by
  refine ⟨rfl, rfl, rfl, ?_, ?_, ?_, ?_, ?_, ?_, ?_, ?_⟩
  · apply strHas_right
    decide
  · apply strHas_right
    decide
  · rw [formatDigest, if_neg h]
    exact List.length_mergeSort entries
  · rw [formatDigest, if_neg h]
    show (entries.mergeSort digestSortLe).length ≠ 0
    rw [List.length_mergeSort]
    intro h0
    exact h (List.eq_nil_of_length_eq_zero h0)
  · rw [formatDigest, if_neg h]
    show List.Pairwise _ (entries.mergeSort digestSortLe)
    exact @List.sorted_mergeSort ProcessedEntry digestSortLe
      (fun a b c hab hbc => leChars_trans _ _ _ hbc hab)
      (fun a b => leChars_total b.published_date.data a.published_date.data) entries
  · rw [formatDigest, if_neg h]
    show (entries.mergeSort digestSortLe).Perm entries
    exact List.mergeSort_perm entries digestSortLe
  · rw [formatDigest, if_neg h]
    show strHas (formatTextDigest tl (entries.mergeSort digestSortLe))
      "📰 *Leave Delaware Daily Digest - " = true
    unfold formatTextDigest
    apply strHas_left
    apply strHas_left
    apply strHas_left
    apply strHas_left
    apply strHas_left
    exact strHas_self_left _ _
  · rw [formatDigest, if_neg h]
    show strHas (formatHtmlDigest tl (entries.mergeSort digestSortLe))
      "Leave Delaware Daily Digest" = true
    unfold formatHtmlDigest htmlHead
    apply strHas_left
    apply strHas_left
    apply strHas_left
    apply strHas_left
    apply strHas_left
    apply strHas_left
    decide

/-- C2 witness: a concrete one-entry digest has total_entries one. -/
theorem C2_format_digest_witness :
    (formatDigest "2025-01-01" "January 01, 2025"
      [{ tag := "Article", title := "t", summary := "s", url := "u", source := "rss", published_date := "2025-01-01", author := "a", original_entry := {} }]).total_entries = 1 := by
  have h := C2_format_digest "2025-01-01" "January 01, 2025"
    [{ tag := "Article", title := "t", summary := "s", url := "u", source := "rss", published_date := "2025-01-01", author := "a", original_entry := {} }] (by decide)
  simpa using h.2.2.2.2.2.1

theorem addHttps_scheme_empty (p : UrlParts) (u : String) (h : p.scheme = "") :
    addHttpsIfNoScheme p u = "https://" ++ lstripSlash u ∧
    isPre "https://".data (addHttpsIfNoScheme p u).data = true := by
  unfold addHttpsIfNoScheme
  rw [if_pos h]
  exact ⟨rfl, by rw [String.data_append]; exact isPre_self_append _ _⟩

theorem addHttps_scheme_keep (p : UrlParts) (u : String) (h : p.scheme ≠ "") :
    addHttpsIfNoScheme p u = u := by
  unfold addHttpsIfNoScheme
  rw [if_neg h]

/-- C5 counterexample: the input double-slash-bracket is non-empty, urlparse
raises on its unmatched bracket, and _normalize_generic_url returns it
unchanged — the result contains no colon at all, hence carries no scheme,
contradicting the always-carries-a-scheme clause of the claim. -/
theorem C5_counterexample :
    ("//[" : String) ≠ "" ∧
    normalizeGenericUrl "//[" = "//[" ∧
    ("//[" : String).data.contains ':' = false := by
  decide

/-- C5 amended: the empty URL is returned unchanged; when urlparse raises on
the stripped input the input is returned unchanged; otherwise a Google
redirect wrapper (host ending in google.com, path starting with /url, a
non-empty q or url parameter) is unwrapped to its percent-decoded target and
the result is that target, or the input unchanged when the target fails to
parse; in every successfully parsed case an https prefix is added exactly
when the parsed URL has no scheme, so the result then carries a scheme. -/
theorem C5_generic_url_amended (url : String) (hu : url ≠ "") :
    normalizeGenericUrl "" = "" ∧
    (∀ p t, googleUnwrapTarget p = some t ↔
      (isGoogleRedirect p = true ∧ googleTarget p = some t ∧ t ≠ "")) ∧
    (∀ er, pyUrlsplit (pyStrip url) = .error er → normalizeGenericUrl url = url) ∧
    (∀ p, pyUrlsplit (pyStrip url) = .ok p → googleUnwrapTarget p = none →
      normalizeGenericUrl url = addHttpsIfNoScheme p (pyStrip url) ∧
      (p.scheme = "" → isPre "https://".data (normalizeGenericUrl url).data = true) ∧
      (p.scheme ≠ "" → normalizeGenericUrl url = pyStrip url)) ∧
    (∀ p t, pyUrlsplit (pyStrip url) = .ok p → googleUnwrapTarget p = some t →
      (∀ er, pyUrlsplit (unquoteS t) = .error er → normalizeGenericUrl url = url) ∧
      (∀ p2, pyUrlsplit (unquoteS t) = .ok p2 →
        normalizeGenericUrl url = addHttpsIfNoScheme p2 (unquoteS t) ∧
        (p2.scheme = "" → isPre "https://".data (normalizeGenericUrl url).data = true) ∧
        (p2.scheme ≠ "" → normalizeGenericUrl url = unquoteS t))) := by
  refine ⟨rfl, ?_, ?_, ?_, ?_⟩
  · intro p t
    simp only [googleUnwrapTarget]
    cases hg : isGoogleRedirect p with
    | false => simp
    | true =>
      cases ht : googleTarget p with
      | none => simp
      | some t2 =>
        simp only [if_true]
        by_cases ht2 : t2 = ""
        · subst ht2
          simp
          exact fun he => he.symm
        · rw [if_pos ht2]
          constructor
          · intro he
            cases he
            exact ⟨trivial, rfl, ht2⟩
          · rintro ⟨-, hgt, -⟩
            exact hgt
  · intro er hp
    simp only [normalizeGenericUrl, if_neg hu, hp]
  · intro p hp hg
    have hbase : normalizeGenericUrl url = addHttpsIfNoScheme p (pyStrip url) := by
      simp only [normalizeGenericUrl, if_neg hu, hp, hg]
    refine ⟨hbase, ?_, ?_⟩
    · intro hs
      rw [hbase]
      exact (addHttps_scheme_empty p (pyStrip url) hs).2
    · intro hs
      rw [hbase]
      exact addHttps_scheme_keep p (pyStrip url) hs
  · intro p t hp hg
    constructor
    · intro er hp2
      simp only [normalizeGenericUrl, if_neg hu, hp, hg, hp2]
    · intro p2 hp2
      have hbase : normalizeGenericUrl url = addHttpsIfNoScheme p2 (unquoteS t) := by
        simp only [normalizeGenericUrl, if_neg hu, hp, hg, hp2]
      refine ⟨hbase, ?_, ?_⟩
      · intro hs
        rw [hbase]
        exact (addHttps_scheme_empty p2 (unquoteS t) hs).2
      · intro hs
        rw [hbase]
        exact addHttps_scheme_keep p2 (unquoteS t) hs

/-- C5 witness: a concrete schemeless URL parses with an empty scheme, is
not a Google redirect, and gains the https prefix. -/
theorem C5_generic_url_witness :
    normalizeGenericUrl "example.com/x" = "https://example.com/x" := by
  have h := C5_generic_url_amended "example.com/x" (by decide)
  have h2 := h.2.2.2.1 { scheme := "", netloc := "", path := "example.com/x", query := "", fragment := "" } rfl rfl
  rw [h2.1]
  decide

theorem strAppend_assoc (a b c : String) : a ++ b ++ c = a ++ (b ++ c) := by
  apply String.ext
  simp [String.data_append]

theorem startsWithHttpCI_https_append (rest : String) :
    startsWithHttpCI ("https://" ++ rest) = true := by
  unfold startsWithHttpCI
  rw [Bool.or_eq_true]
  right
  rw [String.data_append, lowL_append]
  rw [show lowL "https://".data = "https://".data from rfl]
  exact isPre_self_append _ _

/-- C6 counterexample: a row carrying only a numeric tweetId and no URL
field makes _normalize_twitter_url return the empty string — the id fallback
is never reached because of the early return on an empty URL — instead of
the canonical https x.com i-status URL the claim requires. -/
theorem C6_counterexample :
    rowIdStr [("tweetId", "123")] = "123" ∧
    allDigits (rowIdStr [("tweetId", "123")]) = true ∧
    cleanUsername [("tweetId", "123")] = "" ∧
    normalizeTwitterUrl [("tweetId", "123")] = "" ∧
    ("" : String) ≠ "https://x.com/i/status/123" := by
  decide

/-- C6 amended: when the URL candidate fields yield a non-empty base URL
(stripped, google-unwrapped, scheme-ensured), the normalizer returns exactly
https x.com username status id when an id is found in the rewritten URL and
a username is available, the i-status form without a username, the same
forms for a purely numeric id field when the URL carries none, and otherwise
the rewritten URL itself; in all these cases the result starts with http or
https (case-insensitively). When every URL candidate is empty the function
returns the empty string regardless of id fields. -/
theorem C6_twitter_url_amended (row : Row) (h : twBaseUrl row ≠ "") :
    (∀ tid, tweetIdOf (xcomRewrite (twBaseUrl row)) = some tid →
      normalizeTwitterUrl row =
        if cleanUsername row ≠ "" then
          "https://x.com/" ++ cleanUsername row ++ "/status/" ++ tid
        else "https://x.com/i/status/" ++ tid) ∧
    (tweetIdOf (xcomRewrite (twBaseUrl row)) = none → allDigits (rowIdStr row) = true →
      normalizeTwitterUrl row =
        if cleanUsername row ≠ "" then
          "https://x.com/" ++ cleanUsername row ++ "/status/" ++ rowIdStr row
        else "https://x.com/i/status/" ++ rowIdStr row) ∧
    (tweetIdOf (xcomRewrite (twBaseUrl row)) = none → allDigits (rowIdStr row) = false →
      normalizeTwitterUrl row = xcomRewrite (twBaseUrl row)) ∧
    startsWithHttpCI (normalizeTwitterUrl row) = true := by
  have hbase : startsWithHttpCI (twBaseUrl row) = true := ensureScheme_http _ h
  have hx : startsWithHttpCI (xcomRewrite (twBaseUrl row)) = true :=
    xcomRewrite_keeps_http _ hbase
  have hcanon : ∀ uname tid : String,
      startsWithHttpCI (if uname ≠ "" then "https://x.com/" ++ uname ++ "/status/" ++ tid
        else "https://x.com/i/status/" ++ tid) = true := by
    intro uname tid
    by_cases hu : uname ≠ ""
    · rw [if_pos hu]
      rw [show ("https://x.com/" : String) = "https://" ++ "x.com/" from rfl]
      rw [strAppend_assoc, strAppend_assoc]
      exact startsWithHttpCI_https_append _
    · rw [if_neg hu]
      rw [show ("https://x.com/i/status/" : String) = "https://" ++ "x.com/i/status/" from rfl]
      rw [strAppend_assoc]
      exact startsWithHttpCI_https_append _
  have hunf : normalizeTwitterUrl row = normalizeTwitterCore row (xcomRewrite (twBaseUrl row)) := by
    rw [normalizeTwitterUrl]
    show (if twBaseUrl row = "" then twBaseUrl row
      else normalizeTwitterCore row (xcomRewrite (twBaseUrl row))) = _
    rw [if_neg h]
  refine ⟨?_, ?_, ?_, ?_⟩
  · intro tid htid
    rw [hunf, normalizeTwitterCore, htid]
  · intro hnone hdig
    rw [hunf, normalizeTwitterCore, hnone, hdig]
    rfl
  · intro hnone hdig
    rw [hunf, normalizeTwitterCore, hnone, hdig]
    rfl
  · rw [hunf, normalizeTwitterCore]
    cases htid : tweetIdOf (xcomRewrite (twBaseUrl row)) with
    | some tid =>
      exact hcanon (cleanUsername row) tid
    | none =>
      cases hdig : allDigits (rowIdStr row) with
      | true =>
        rw [if_pos rfl]
        exact hcanon (cleanUsername row) (rowIdStr row)
      | false =>
        rw [if_neg (by exact Bool.false_ne_true)]
        exact hx

/-- C6 witness: a concrete row with a twitter.com status URL and no username
field yields the canonical i-status form on x.com. -/
theorem C6_twitter_url_witness :
    normalizeTwitterUrl [("url", "https://twitter.com/a/status/7")] =
      "https://x.com/i/status/7" := by
  have h := C6_twitter_url_amended [("url", "https://twitter.com/a/status/7")] (by decide)
  have h2 := h.1 "7" (by decide)
  rw [h2]
  decide

theorem pySpace_of_isDigit {c : Char} (h : c.isDigit = true) : pySpace c = false := by
  have h48 : 48 ≤ c.toNat ∧ c.toNat ≤ 57 := by
    simp only [Char.isDigit, Bool.and_eq_true, decide_eq_true_eq] at h
    exact ⟨h.1, h.2⟩
  have hx : ∀ d : Char, d.toNat ≠ c.toNat → (c == d) = false := by
    intro d hd
    cases hcd : c == d with
    | false => rfl
    | true => exact absurd (congrArg Char.toNat (eq_of_beq hcd)).symm hd
  unfold pySpace
  rw [hx ' ' (show (32 : ℕ) ≠ c.toNat by omega),
    hx '\t' (show (9 : ℕ) ≠ c.toNat by omega),
    hx '\n' (show (10 : ℕ) ≠ c.toNat by omega),
    hx '\r' (show (13 : ℕ) ≠ c.toNat by omega),
    hx '\x0b' (show (11 : ℕ) ≠ c.toNat by omega),
    hx '\x0c' (show (12 : ℕ) ≠ c.toNat by omega)]
  rfl

/-- C7: a social-media row (Twitter or LinkedIn, and the per-row handling is
shared by the CSV and JSON paths) contributes an entry exactly when its
extracted date is recent — in particular a missing or unparseable date is
never treated as recent and the row is always excluded — where recent means
at least now minus window_days days, and a 10-to-13-digit numeric string
parses as an epoch timestamp, milliseconds when at least ten to the twelfth
and seconds otherwise. -/
theorem C7_date_gating (lib : PBContext) (st : String) (row : Row) (rows : List Row)
    (s : String) (hd : s.data.all Char.isDigit = true) (h10 : 10 ≤ s.data.length)
    (h13 : s.data.length ≤ 13) :
    ((twitterStep lib st row).isSome = isRecent lib (twitterGate lib row).1) ∧
    ((twitterGate lib row).1 = none → twitterStep lib st row = none) ∧
    ((linkedinStep lib row).isSome = isRecent lib (extractDate lib row)) ∧
    (extractDate lib row = none → linkedinStep lib row = none) ∧
    parseTwitterRows lib st rows = rows.filterMap (twitterStep lib st) ∧
    parseLinkedinRows lib rows = rows.filterMap (linkedinStep lib) ∧
    isRecent lib none = false ∧
    (∀ d : ℚ, isRecent lib (some d) =
      decide (lib.now - (lib.windowDays : ℚ) * 86400 ≤ d)) ∧
    (natOfDigits s.data < 253402300800 →
      parseDate lib s = some ((natOfDigits s.data : ℚ))) ∧
    (1000000000000 ≤ natOfDigits s.data → natOfDigits s.data < 253402300800000 →
      parseDate lib s = some ((natOfDigits s.data : ℚ) / 1000)) := by
  have hne : s ≠ "" := by
    intro he
    rw [he] at h10
    simp at h10
  have hstrip : pyStrip s = s := by
    apply String.ext
    show stripL pySpace s.data = s.data
    apply stripL_eq_self
    intro c hc
    exact pySpace_of_isDigit (by
      rw [List.all_eq_true] at hd
      exact hd c hc)
  have hpd : parseDate lib s = parseDateCore lib s := by
    rw [parseDate, if_neg hne, hstrip]
  refine ⟨?_, ?_, ?_, ?_, rfl, rfl, rfl, fun d => rfl, ?_, ?_⟩
  · cases hr : isRecent lib (twitterGate lib row).1 <;>
      simp [twitterStep, hr]
  · intro hg
    have : isRecent lib (twitterGate lib row).1 = false := by rw [hg]; rfl
    simp [twitterStep, this]
  · cases hr : isRecent lib (extractDate lib row) <;>
      simp [linkedinStep, hr]
  · intro hg
    have : isRecent lib (extractDate lib row) = false := by rw [hg]; rfl
    simp [linkedinStep, this]
  · intro hmax
    rw [hpd, parseDateCore, if_pos ⟨hd, h10, h13⟩]
    have hv : ((natOfDigits s.data : ℚ)) < 1000000000000 := by
      exact_mod_cast lt_trans hmax (by norm_num)
    rw [if_neg (not_le.mpr hv)]
    rw [pyFromtimestamp, if_pos (by exact_mod_cast hmax)]
  · intro hms hmax2
    rw [hpd, parseDateCore, if_pos ⟨hd, h10, h13⟩]
    have hv : (1000000000000 : ℚ) ≤ (natOfDigits s.data : ℚ) := by exact_mod_cast hms
    rw [if_pos hv]
    have ht : ((natOfDigits s.data : ℚ)) / 1000 < 253402300800 := by
      rw [div_lt_iff₀ (by norm_num : (0 : ℚ) < 1000)]
      calc ((natOfDigits s.data : ℚ)) < 253402300800000 := by exact_mod_cast hmax2
        _ = 253402300800 * 1000 := by norm_num
    rw [pyFromtimestamp, if_pos ht]

/-- C7 witness: a concrete ten-digit epoch string parses to its value in
seconds (with a trivial oracle context). -/
theorem C7_date_gating_witness :
    parseDate ⟨fun _ _ => none, fun _ => "", fun _ => "", 0, 1⟩ "1700000000" =
      some ((1700000000 : ℕ) : ℚ) := by
  have h := C7_date_gating ⟨fun _ _ => none, fun _ => "", fun _ => "", 0, 1⟩ "tw" [] []
    "1700000000" (by decide) (by decide) (by decide)
  have h2 := h.2.2.2.2.2.2.2.2.1 (by decide)
  rw [show natOfDigits "1700000000".data = 1700000000 from by decide] at h2
  exact h2

/-- C8: one run delivers the same digest to the chat channel first and the
email channel second; each channel send returns a boolean, false exactly
when the underlying client raised, so the email attempt and its outcome are
unaffected by the chat outcome. -/
theorem C8_two_channel_delivery (post post2 : Digest → PyResult Unit)
    (send : String → Digest → PyResult Unit) (recipients : List String) (d : Digest)
    (m : String) :
    (mainDeliver post send recipients d).map Prod.fst = ["slack", "gmail"] ∧
    mainDeliver post send recipients d =
      [("slack", slackSendDigest post d), ("gmail", gmailSendDigest send recipients d)] ∧
    slackSendDigest (fun _ => PyResult.exn m) d = false ∧
    (slackSendDigest post d = false ↔ ∃ msg, post d = PyResult.exn msg) ∧
    (gmailSendDigest send recipients d = false ↔
      ∃ msg, gmailLoop send d recipients = PyResult.exn msg) ∧
    (mainDeliver post send recipients d).get? 1 =
      (mainDeliver post2 send recipients d).get? 1 := by
  refine ⟨rfl, rfl, rfl, ?_, ?_, rfl⟩
  · unfold slackSendDigest
    cases post d with
    | ok v => simp
    | exn msg => simp
  · unfold gmailSendDigest
    cases gmailLoop send d recipients with
    | ok v => simp
    | exn msg => simp

end LDNews
